import Mathlib

/-!
Verification of the EcoBackend normalization/caching/impact-calculator core.

Shallow embedding of:
- utils/api_helpers.py : fetch_with_cache (time-bounded response cache)
- utils/data_processing.py : process_aqi_data, process_bird_data,
  process_pollution_data (payload normalizers)
- routes/api.py : calculate_impact (carbon/water/land footprint calculator)

Conventions: Python floats are modelled as exact rationals; Python
round(x, n) is modelled as rounding x * 10^n to the nearest integer
(ties at half-integers do not occur in any input considered here);
Python dicts are modelled as association lists in insertion order
(a Python dict preserves insertion order, and writing an existing key
updates it in place); an exception raised by requests.get is modelled
with Except.
-/

namespace EcoBackend

/-- A Python value, as far as the normalizers inspect payloads:
numbers, strings, dicts (insertion-ordered association lists),
lists, and None. -/
inductive PyVal where
  | num (q : ℚ)
  | str (s : String)
  | dict (kvs : List (String × PyVal))
  | arr (xs : List PyVal)
  | null

/-! ## utils/api_helpers.py — fetch_with_cache -/

/-- A requests.Response, as far as the cache inspects it: the HTTP
status code plus an opaque body distinguishing distinct responses. -/
structure Response where
  status_code : ℕ
  body : String
deriving DecidableEq

/-- The module-level in-memory cache: cache_key -> (timestamp, response). -/
def Cache := List (String × (ℚ × Response))

/-- Python repr of a string without special characters: surrounded by
single quotes (the header names/values considered here contain no
quotes or escapes). -/
def pyReprStr (s : String) : String := "\x27" ++ s ++ "\x27"

/-- Python str() of one dict entry: repr key, colon-space, repr value. -/
def pyStrEntry (kv : String × String) : String :=
  pyReprStr kv.1 ++ ": " ++ pyReprStr kv.2

/-- Python str() of a Dict[str, str]: entries in insertion order,
comma-separated, inside braces. -/
def pyStrHeaders (h : List (String × String)) : String :=
  "\x7b" ++ String.intercalate ", " (h.map pyStrEntry) ++ "\x7d"

/-- Python str(headers) where headers is Optional[Dict[str, str]]. -/
def pyStrOptHeaders : Option (List (String × String)) → String
  | Option.none => "None"
  | Option.some h => pyStrHeaders h

/-- cache_key = f"{url}_{str(headers)}" from fetch_with_cache. -/
def cacheKey (url : String) (headers : Option (List (String × String))) : String :=
  url ++ "_" ++ pyStrOptHeaders headers

/-- Python dict assignment cache[key] = v: overwrite in place when the
key is present, append otherwise. -/
def setEntry : List (String × (ℚ × Response)) → String → (ℚ × Response) →
    List (String × (ℚ × Response))
  | [], k, v => [(k, v)]
  | (k', v') :: rest, k, v =>
      if k' = k then (k, v) :: rest else (k', v') :: setEntry rest k v

/-- Result of one fetch_with_cache call: the returned response, the
cache state afterwards, and whether requests.get was invoked. -/
structure FetchOutcome where
  response : Response
  cache : List (String × (ℚ × Response))
  fetched : Bool
deriving DecidableEq

/-- The fetch-and-maybe-store tail of fetch_with_cache: perform the
request (its outcome is passed in as fetchResult; Except.error models
a raised exception, which propagates); cache (now, response) only on
status 200. -/
def fetchStore (key : String) (c : List (String × (ℚ × Response))) (now : ℚ)
    (fetchResult : Except String Response) : Except String FetchOutcome :=
  match fetchResult with
  | Except.error e => Except.error e
  | Except.ok r =>
      Except.ok ⟨r, if r.status_code = 200 then setEntry c key (now, r) else c, true⟩

/-- fetch_with_cache from utils/api_helpers.py. The wall clock
(time.time()) is passed in as now; the outcome of requests.get as
fetchResult. If a cached entry for the key is younger than cache_time,
it is returned without fetching; otherwise the request is made and
stored only on status 200. -/
def fetch_with_cache (url : String) (headers : Option (List (String × String)))
    (cache_time : ℚ) (c : List (String × (ℚ × Response))) (now : ℚ)
    (fetchResult : Except String Response) : Except String FetchOutcome :=
  let key := cacheKey url headers
  match c.lookup key with
  | Option.some (cached_time, cached_response) =>
      if now - cached_time < cache_time then
        Except.ok ⟨cached_response, c, false⟩
      else fetchStore key c now fetchResult
  | Option.none => fetchStore key c now fetchResult

/-- Whether a call outcome involved invoking requests.get (an exception
can only arise from an actual request). -/
def invokedFetch : Except String FetchOutcome → Bool
  | Except.error _ => true
  | Except.ok o => o.fetched

/-! ## routes/api.py — calculate_impact -/

/-- The JSON body of POST /api/calculate-impact; every field is
optional, calculate_impact supplies the defaults via data.get. -/
structure ImpactProfile where
  transportation_type : Option String
  commute_distance : Option ℚ
  flights_per_year : Option ℤ
  home_size : Option ℚ
  household_members : Option ℤ
  energy_source : Option String
  diet_type : Option String
  local_food_percent : Option ℚ
  recycling_rate : Option ℚ
  shopping_frequency : Option String

/-- transport_factors.get(transport_type, 0.192), kg CO2 per km. -/
def transport_factor (t : String) : ℚ :=
  if t = "car" then 0.192
  else if t = "electric_car" then 0.053
  else if t = "public_transport" then 0.058
  else if t = "carpool" then 0.096
  else if t = "bicycle" then 0
  else if t = "walking" then 0
  else 0.192

/-- energy_factors.get(energy_source, 0.3), kg CO2 per sq meter per day. -/
def energy_factor (s : String) : ℚ :=
  if s = "grid" then 0.3
  else if s = "renewable" then 0.02
  else if s = "natural_gas" then 0.2
  else if s = "oil" then 0.35
  else if s = "mixed" then 0.25
  else 0.3

/-- diet_factors.get(diet_type, 5.1), kg CO2 per day. -/
def diet_factor (d : String) : ℚ :=
  if d = "meat_heavy" then 7.9
  else if d = "meat_medium" then 5.1
  else if d = "pescatarian" then 3.9
  else if d = "vegetarian" then 3.3
  else if d = "vegan" then 2.5
  else 5.1

/-- shopping_factors.get(shopping_frequency, 1.0). -/
def shopping_factor (f : String) : ℚ :=
  if f = "minimal" then 0.5
  else if f = "moderate" then 1.0
  else if f = "frequent" then 1.5
  else if f = "very_frequent" then 2.0
  else 1.0

/-- diet_water.get(diet_type, 3800), liters per day. -/
def diet_water (d : String) : ℚ :=
  if d = "meat_heavy" then 5000
  else if d = "meat_medium" then 3800
  else if d = "pescatarian" then 2800
  else if d = "vegetarian" then 2200
  else if d = "vegan" then 1700
  else 3800

/-- diet_land.get(diet_type, 1.2), global hectares. -/
def diet_land (d : String) : ℚ :=
  if d = "meat_heavy" then 2.0
  else if d = "meat_medium" then 1.2
  else if d = "pescatarian" then 0.8
  else if d = "vegetarian" then 0.6
  else if d = "vegan" then 0.4
  else 1.2

/-- transportation_impact = commute_distance * 365 * transport_factor. -/
def transportation_impact (p : ImpactProfile) : ℚ :=
  p.commute_distance.getD 20 * 365 * transport_factor (p.transportation_type.getD "car")

/-- flight_impact = flights_per_year * 1100. -/
def flight_impact (p : ImpactProfile) : ℚ :=
  ((p.flights_per_year.getD 2 : ℤ) : ℚ) * 1100

/-- home_energy_impact = (home_size * 365 * energy_factor) / max(1, household_members). -/
def home_energy_impact (p : ImpactProfile) : ℚ :=
  p.home_size.getD 100 * 365 * energy_factor (p.energy_source.getD "grid") /
    ((max 1 (p.household_members.getD 2) : ℤ) : ℚ)

/-- diet_impact = 365 * diet_factor * (1 - local_food_percent * 0.0025). -/
def diet_impact (p : ImpactProfile) : ℚ :=
  365 * diet_factor (p.diet_type.getD "meat_medium") *
    (1 - p.local_food_percent.getD 30 * 0.0025)

/-- waste_impact = 1100 * (1 - recycling_rate * 0.005) * shopping_factor. -/
def waste_impact (p : ImpactProfile) : ℚ :=
  1100 * (1 - p.recycling_rate.getD 50 * 0.005) *
    shopping_factor (p.shopping_frequency.getD "moderate")

/-- Total carbon footprint in kg CO2 per year: the sum of the five
components. -/
def carbon_kg (p : ImpactProfile) : ℚ :=
  transportation_impact p + flight_impact p + home_energy_impact p +
    diet_impact p + waste_impact p

/-- Python round(x, 2) on the exact rational value: nearest multiple
of 1/100 (ties cannot occur at the inputs considered). -/
def round2 (q : ℚ) : ℚ := ((round (100 * q) : ℤ) : ℚ) / 100

/-- Python round(x, 0) on the exact rational value. -/
def round0 (q : ℚ) : ℚ := ((round q : ℤ) : ℚ)

/-- The breakdown mapping of calculate_impact: each component in tons,
rounded to 2 decimals. -/
structure Breakdown where
  transportation : ℚ
  flights : ℚ
  home_energy : ℚ
  diet : ℚ
  waste : ℚ
deriving DecidableEq

/-- One recommendation record appended by a threshold rule. -/
structure Advice where
  category : String
  impact : String
  title : String
deriving DecidableEq

/-- The recommendation list of calculate_impact: independent threshold
rules evaluated in a fixed order, each appending a fixed record
(descriptions elided; no claim concerns them). -/
def recommendations (p : ImpactProfile) : List Advice :=
  (if p.transportation_type.getD "car" = "car" ∨
      p.transportation_type.getD "car" = "electric_car" then
    [⟨"transport", "high", "Consider public transit or carpooling"⟩] else []) ++
  (if p.flights_per_year.getD 2 > 3 then
    [⟨"transport", "high", "Reduce air travel"⟩] else []) ++
  (if p.energy_source.getD "grid" ≠ "renewable" then
    [⟨"energy", "high", "Switch to renewable energy"⟩] else []) ++
  (if p.diet_type.getD "meat_medium" = "meat_heavy" ∨
      p.diet_type.getD "meat_medium" = "meat_medium" then
    [⟨"diet", "high", "Reduce meat consumption"⟩] else []) ++
  (if p.local_food_percent.getD 30 < 40 then
    [⟨"diet", "medium", "Choose local and seasonal foods"⟩] else []) ++
  (if p.recycling_rate.getD 50 < 60 then
    [⟨"waste", "medium", "Increase recycling efforts"⟩] else []) ++
  (if p.shopping_frequency.getD "moderate" = "frequent" ∨
      p.shopping_frequency.getD "moderate" = "very_frequent" then
    [⟨"waste", "medium", "Reduce consumption"⟩] else [])

/-- The JSON result of calculate_impact. -/
structure ImpactResult where
  carbon_footprint : ℚ
  water_footprint : ℚ
  land_footprint : ℚ
  breakdown : Breakdown
  recommendations : List Advice

/-- calculate_impact from routes/api.py on a parsed request body. -/
def calculate_impact (p : ImpactProfile) : ImpactResult :=
  { carbon_footprint := round2 (carbon_kg p / 1000)
    water_footprint := round0 (150 + diet_water (p.diet_type.getD "meat_medium"))
    land_footprint := round2 (0.2 + diet_land (p.diet_type.getD "meat_medium"))
    breakdown :=
      { transportation := round2 (transportation_impact p / 1000)
        flights := round2 (flight_impact p / 1000)
        home_energy := round2 (home_energy_impact p / 1000)
        diet := round2 (diet_impact p / 1000)
        waste := round2 (waste_impact p / 1000) }
    recommendations := recommendations p }

/-! ## utils/data_processing.py — process_aqi_data -/

/-- The data sub-object of an AQICN payload, as far as
process_aqi_data reads it. The claims under verification concern
integer aqi values, so aqi is modelled at that type; the time, geo and
forecast fields are passed through by the code and not modelled here
(no claim concerns them). -/
structure AqiData where
  aqi : Option ℤ
  city : Option PyVal
  dominentpol : Option PyVal
  iaqi : List (String × PyVal)

/-- A raw AQICN API response. -/
structure AqiInput where
  status : Option String
  data : Option AqiData

/-- The normalized record built by process_aqi_data (modelled fields). -/
structure AqiRecord where
  city_name : PyVal
  aqi : ℤ
  dominantPollutant : PyVal
  iaqi : List (String × PyVal)
  category : String
  color : String

/-- The three possible shapes returned by process_aqi_data. -/
inductive AqiOutput where
  | errorStatus (raw_status : Option String)
  | errorNoAqi
  | ok (rec : AqiRecord)

/-- City-name extraction: a dict uses its name field (default
"Unknown"), a plain string is used as is, anything else gives
"Unknown". -/
def extractCityName : Option PyVal → PyVal
  | Option.some (PyVal.dict kvs) => (kvs.lookup "name").getD (PyVal.str "Unknown")
  | Option.some (PyVal.str s) => PyVal.str s
  | _ => PyVal.str "Unknown"

/-- The per-pollutant loop of process_aqi_data: a dict value containing
key v is kept unchanged, a bare number is wrapped as a dict with a
single v field, any other shape is skipped. -/
def processIaqi : List (String × PyVal) → List (String × PyVal)
  | [] => []
  | (pollutant, v) :: rest =>
      match v with
      | PyVal.dict kvs =>
          if (kvs.lookup "v").isSome then (pollutant, PyVal.dict kvs) :: processIaqi rest
          else processIaqi rest
      | PyVal.num q => (pollutant, PyVal.dict [("v", PyVal.num q)]) :: processIaqi rest
      | _ => processIaqi rest

/-- The category ladder at the end of process_aqi_data. -/
def aqiCategory (aqi_value : ℤ) : String :=
  if aqi_value ≤ 50 then "Good"
  else if aqi_value ≤ 100 then "Moderate"
  else if aqi_value ≤ 150 then "Unhealthy for Sensitive Groups"
  else if aqi_value ≤ 200 then "Unhealthy"
  else if aqi_value ≤ 300 then "Very Unhealthy"
  else "Hazardous"

/-- The color assigned alongside each category. -/
def aqiColor (aqi_value : ℤ) : String :=
  if aqi_value ≤ 50 then "#00e400"
  else if aqi_value ≤ 100 then "#ffff00"
  else if aqi_value ≤ 150 then "#ff7e00"
  else if aqi_value ≤ 200 then "#ff0000"
  else if aqi_value ≤ 300 then "#99004c"
  else "#7e0023"

/-- process_aqi_data from utils/data_processing.py. -/
def process_aqi_data (input : AqiInput) : AqiOutput :=
  if input.status ≠ Option.some "ok" then AqiOutput.errorStatus input.status
  else
    let result := input.data.getD ⟨Option.none, Option.none, Option.none, []⟩
    match result.aqi with
    | Option.none => AqiOutput.errorNoAqi
    | Option.some aqi =>
        AqiOutput.ok
          { city_name := extractCityName result.city
            aqi := aqi
            dominantPollutant := result.dominentpol.getD (PyVal.str "Unknown")
            iaqi := processIaqi result.iaqi
            category := aqiCategory aqi
            color := aqiColor aqi }

/-! ## utils/data_processing.py — process_bird_data -/

/-- One raw eBird sighting record, as far as process_bird_data reads it. -/
structure Sighting where
  comName : Option String
  sciName : Option String
  locName : Option String
  obsDt : Option String
  howMany : Option ℤ
  lat : Option ℚ
  lng : Option ℚ

/-- The species key of a sighting: comName, default "Unknown". -/
def birdName (s : Sighting) : String := s.comName.getD "Unknown"

/-- One step of the species_count loop: increment an existing key in
place, or append a new key with count 1. -/
def bumpCount : List (String × ℕ) → String → List (String × ℕ)
  | [], s => [(s, 1)]
  | (k, n) :: rest, s =>
      if k = s then (k, n + 1) :: rest else (k, n) :: bumpCount rest s

/-- The species_count table: the fold of bumpCount over all sightings
(a Python dict in insertion order). -/
def speciesCount (data : List Sighting) : List (String × ℕ) :=
  data.foldl (fun acc s => bumpCount acc (birdName s)) []

/-- The comparison used by sorted(..., key=lambda x: x[1],
reverse=True): descending by count. Python sorted is stable, as is
List.mergeSort. -/
def countGe (p q : String × ℕ) : Bool := q.2 ≤ p.2

/-- One normalized bird observation. -/
structure BirdRec where
  species : String
  scientific_name : String
  location : String
  observation_date : String
  count : ℤ
  lat : ℚ
  lng : ℚ
deriving DecidableEq

/-- The per-record normalization of process_bird_data. -/
def mkBirdRec (s : Sighting) : BirdRec :=
  { species := s.comName.getD "Unknown"
    scientific_name := s.sciName.getD "Unknown"
    location := s.locName.getD "Unknown"
    observation_date := s.obsDt.getD "Unknown"
    count := s.howMany.getD 1
    lat := s.lat.getD 0
    lng := s.lng.getD 0 }

/-- The result shape of process_bird_data. -/
structure BirdResult where
  birds : List BirdRec
  counts : List (String × ℕ)
  total : ℕ
deriving DecidableEq

/-- process_bird_data from utils/data_processing.py. -/
def process_bird_data (data : List Sighting) : BirdResult :=
  if data.isEmpty then { birds := [], counts := [], total := 0 }
  else
    { birds := data.map mkBirdRec
      counts := ((speciesCount data).mergeSort countGe).take 10
      total := data.length }

/-! ## utils/data_processing.py — process_pollution_data -/

/-- One raw OpenAQ measurement, as far as the code reads it. -/
structure Measurement where
  parameter : Option String
  value : Option ℚ
  unit : Option String
  lastUpdated : Option String

/-- One raw OpenAQ location entry. -/
structure LocationRaw where
  location : Option String
  city : Option String
  latitude : Option ℚ
  longitude : Option ℚ
  measurements : List Measurement

/-- A raw OpenAQ payload. -/
structure PollutionInput where
  results : List LocationRaw

/-- The two per-pollutant accumulators threaded through the loops:
pollutant_counts and pollutant_values. -/
structure PollAcc where
  counts : List (String × ℕ)
  values : List (String × List ℚ)

/-- Append a value to the list stored at an existing key (in place). -/
def appendVal : List (String × List ℚ) → String → ℚ → List (String × List ℚ)
  | [], k, v => [(k, [v])]
  | (k', vs) :: rest, k, v =>
      if k' = k then (k', vs ++ [v]) :: rest else (k', vs) :: appendVal rest k v

/-- The measurement key/value actually accumulated: parameter default
"Unknown", value default 0. -/
def measKey (m : Measurement) : String := m.parameter.getD "Unknown"

/-- The recorded value of a measurement. -/
def measVal (m : Measurement) : ℚ := m.value.getD 0

/-- The inner-loop accumulator update for one measurement: first
occurrence installs count 1 and a singleton list, a repeat occurrence
increments the count and appends the value. -/
def stepMeasure (acc : PollAcc) (m : Measurement) : PollAcc :=
  { counts := bumpCount acc.counts (measKey m)
    values := appendVal acc.values (measKey m) (measVal m) }

/-- One normalized measurement inside a location entry. -/
structure MeasRec where
  parameter : String
  value : ℚ
  unit : String
  lastUpdated : String
deriving DecidableEq

/-- One normalized location entry. -/
structure LocRec where
  name : String
  city : String
  latitude : ℚ
  longitude : ℚ
  measurements : List MeasRec
deriving DecidableEq

/-- The per-location normalization (the loc_data dict). -/
def mkLocRec (loc : LocationRaw) : LocRec :=
  { name := loc.location.getD "Unknown"
    city := loc.city.getD "Unknown"
    latitude := loc.latitude.getD 0
    longitude := loc.longitude.getD 0
    measurements := loc.measurements.map fun m =>
      { parameter := measKey m
        value := measVal m
        unit := m.unit.getD ""
        lastUpdated := m.lastUpdated.getD "Unknown" } }

/-- The accumulator state after visiting all measurements of all
locations, in order. -/
def pollAccOf (input : PollutionInput) : PollAcc :=
  input.results.foldl (fun acc loc => loc.measurements.foldl stepMeasure acc) ⟨[], []⟩

/-- The average computed for one pollutant: sum / len (the else-0
guard of the source is kept, though an empty list never occurs). -/
def avgOf (vs : List ℚ) : ℚ := if vs.isEmpty then 0 else vs.sum / (vs.length : ℚ)

/-- The result shape of process_pollution_data. -/
structure PollutionResult where
  locations : List LocRec
  counts : List (String × ℕ)
  averages : List (String × ℚ)
  total : ℕ

/-- process_pollution_data from utils/data_processing.py. -/
def process_pollution_data (input : PollutionInput) : PollutionResult :=
  if input.results.isEmpty then
    { locations := [], counts := [], averages := [], total := 0 }
  else
    let acc := pollAccOf input
    { locations := input.results.map mkLocRec
      counts := acc.counts
      averages := acc.values.map fun kv => (kv.1, avgOf kv.2)
      total := input.results.length }

/-! ## Theorems -/

/-- The example profile of the impact-calculator end-to-end claim. -/
def profileC1 : ImpactProfile :=
  { transportation_type := Option.some "car"
    commute_distance := Option.some 20
    flights_per_year := Option.some 2
    home_size := Option.some 100
    household_members := Option.some 2
    energy_source := Option.some "grid"
    diet_type := Option.some "meat_medium"
    local_food_percent := Option.some 30
    recycling_rate := Option.some 50
    shopping_frequency := Option.some "moderate" }

/-- C1: on the example profile (car, 20 km, 2 flights, 100 sqm, 2
members, grid, meat_medium, 30% local, 50% recycling, moderate
shopping), calculate_impact computes transportation_impact = 1401.6 kg,
flight_impact = 2200 kg, home_energy_impact = 5475 kg, diet_impact =
365*5.1*(1-30*0.0025) kg, waste_impact = 825 kg, and returns
carbon_footprint equal to the sum of the five components divided by
1000 and rounded to 2 decimals, namely 11.62 tons. -/
theorem impact_example_profile_values :
    transportation_impact profileC1 = 1401.6 ∧
    flight_impact profileC1 = 2 * 1100 ∧
    home_energy_impact profileC1 = (100 * 365 * 0.3) / 2 ∧
    diet_impact profileC1 = 365 * 5.1 * (1 - 30 * 0.0025) ∧
    waste_impact profileC1 = 1100 * (1 - 50 * 0.005) * 1.0 ∧
    (calculate_impact profileC1).carbon_footprint =
      round2 ((transportation_impact profileC1 + flight_impact profileC1 +
        home_energy_impact profileC1 + diet_impact profileC1 +
        waste_impact profileC1) / 1000) ∧
    (calculate_impact profileC1).carbon_footprint = 11.62 := by
  have ht : transportation_impact profileC1 = 1401.6 := by
    norm_num [transportation_impact, profileC1, transport_factor]
  have hf : flight_impact profileC1 = 2 * 1100 := by
    norm_num [flight_impact, profileC1]
  have hh : home_energy_impact profileC1 = (100 * 365 * 0.3) / 2 := by
    norm_num [home_energy_impact, profileC1, energy_factor]
  have hd : diet_impact profileC1 = 365 * 5.1 * (1 - 30 * 0.0025) := by
    norm_num [diet_impact, profileC1, diet_factor]
    decide
  have hw : waste_impact profileC1 = 1100 * (1 - 50 * 0.005) * 1.0 := by
    norm_num [waste_impact, profileC1, shopping_factor]
    decide
  have hk : carbon_kg profileC1 = 11623.4875 := by
    unfold carbon_kg
    rw [ht, hf, hh, hd, hw]; norm_num
  have hcf : (calculate_impact profileC1).carbon_footprint = 11.62 := by
    show round2 (carbon_kg profileC1 / 1000) = 11.62
    rw [hk]
    unfold round2
    norm_num [round_eq]
  exact ⟨ht, hf, hh, hd, hw, rfl, hcf⟩

/-- Auxiliary bound: round2 moves a rational by at most half of one
hundredth. -/
theorem abs_round2_sub_le (x : ℚ) : |round2 x - x| ≤ 1 / 200 := by
  have h : |100 * x - round (100 * x)| ≤ 1 / 2 := abs_sub_round (100 * x)
  have hrw : round2 x - x = -((100 * x - ((round (100 * x) : ℤ) : ℚ)) / 100) := by
    unfold round2; ring
  rw [hrw, abs_neg, abs_div]
  have h100 : |(100 : ℚ)| = 100 := by norm_num
  rw [h100]
  rw [show (1 : ℚ) / 200 = (1 / 2) / 100 by norm_num]
  exact div_le_div_of_nonneg_right h (by norm_num) |>.trans_eq rfl

/-- C7: for every input profile, the five breakdown entries sum to the
returned carbon_footprint up to the rounding error of rounding each
entry and the total independently to 2 decimals (six roundings, each
off by at most 1/200, so within 3/100 tons). -/
theorem breakdown_sums_to_carbon_footprint (p : ImpactProfile) :
    |((calculate_impact p).breakdown.transportation +
      (calculate_impact p).breakdown.flights +
      (calculate_impact p).breakdown.home_energy +
      (calculate_impact p).breakdown.diet +
      (calculate_impact p).breakdown.waste) -
      (calculate_impact p).carbon_footprint| ≤ 3 / 100 := by
  have h1 := abs_round2_sub_le (transportation_impact p / 1000)
  have h2 := abs_round2_sub_le (flight_impact p / 1000)
  have h3 := abs_round2_sub_le (home_energy_impact p / 1000)
  have h4 := abs_round2_sub_le (diet_impact p / 1000)
  have h5 := abs_round2_sub_le (waste_impact p / 1000)
  have h6 := abs_round2_sub_le (carbon_kg p / 1000)
  have hsplit : carbon_kg p / 1000 =
      transportation_impact p / 1000 + flight_impact p / 1000 +
      home_energy_impact p / 1000 + diet_impact p / 1000 +
      waste_impact p / 1000 := by
    unfold carbon_kg; ring
  rw [abs_le] at h1 h2 h3 h4 h5 h6 ⊢
  simp only [calculate_impact]
  constructor <;> [skip; skip] <;>
    · obtain ⟨h1a, h1b⟩ := h1
      obtain ⟨h2a, h2b⟩ := h2
      obtain ⟨h3a, h3b⟩ := h3
      obtain ⟨h4a, h4b⟩ := h4
      obtain ⟨h5a, h5b⟩ := h5
      obtain ⟨h6a, h6b⟩ := h6
      linarith [hsplit]

/-- C9: process_bird_data on an empty sighting list returns exactly
the empty-result shape with no birds, an empty counts table and total
zero. -/
theorem bird_data_empty_input :
    process_bird_data [] = { birds := [], counts := [], total := 0 } := rfl

/-- C3: on any accepted payload (status ok, integer aqi present) the
returned category and color are the fixed pure function of the aqi
value alone given by the inclusive-upper-bound ladder over breakpoints
50/100/150/200/300; in particular 50 is Good/#00e400, 51 is
Moderate/#ffff00 and 301 is Hazardous/#7e0023. -/
theorem aqi_category_color_ladder (i : AqiInput) (d : AqiData) (a : ℤ)
    (r : AqiRecord) (hs : i.status = Option.some "ok")
    (hd : i.data = Option.some d) (ha : d.aqi = Option.some a)
    (hok : process_aqi_data i = AqiOutput.ok r) :
    (r.category = aqiCategory a ∧ r.color = aqiColor a) ∧
    (aqiCategory 50 = "Good" ∧ aqiColor 50 = "#00e400" ∧
     aqiCategory 51 = "Moderate" ∧ aqiColor 51 = "#ffff00" ∧
     aqiCategory 100 = "Moderate" ∧
     aqiCategory 101 = "Unhealthy for Sensitive Groups" ∧
     aqiCategory 150 = "Unhealthy for Sensitive Groups" ∧
     aqiCategory 151 = "Unhealthy" ∧
     aqiCategory 200 = "Unhealthy" ∧
     aqiCategory 201 = "Very Unhealthy" ∧
     aqiCategory 300 = "Very Unhealthy" ∧
     aqiCategory 301 = "Hazardous" ∧ aqiColor 301 = "#7e0023") := by
  refine ⟨?_, by decide, by decide, by decide, by decide, by decide, by decide,
    by decide, by decide, by decide, by decide, by decide, by decide, by decide⟩
  simp only [process_aqi_data, hs, hd, ha, Option.getD_some, ne_eq,
    not_true_eq_false, if_false] at hok
  cases hok
  exact ⟨rfl, rfl⟩

/-- A concrete accepted AQI payload used to witness the AQI theorems. -/
def aqiInputOf (a : ℤ) (iaqi : List (String × PyVal)) : AqiInput :=
  { status := Option.some "ok"
    data := Option.some
      { aqi := Option.some a
        city := Option.none
        dominentpol := Option.none
        iaqi := iaqi } }

/-- The record produced by process_aqi_data on the witness payload with
aqi 50 and no pollutant readings. -/
def aqiRec50 : AqiRecord :=
  { city_name := PyVal.str "Unknown"
    aqi := 50
    dominantPollutant := PyVal.str "Unknown"
    iaqi := []
    category := "Good"
    color := "#00e400" }

/-- Witness for the AQI ladder theorem at aqi = 50. -/
theorem aqi_category_color_ladder_witness :
    (aqiRec50.category = aqiCategory 50 ∧ aqiRec50.color = aqiColor 50) ∧
    (aqiCategory 50 = "Good" ∧ aqiColor 50 = "#00e400" ∧
     aqiCategory 51 = "Moderate" ∧ aqiColor 51 = "#ffff00" ∧
     aqiCategory 100 = "Moderate" ∧
     aqiCategory 101 = "Unhealthy for Sensitive Groups" ∧
     aqiCategory 150 = "Unhealthy for Sensitive Groups" ∧
     aqiCategory 151 = "Unhealthy" ∧
     aqiCategory 200 = "Unhealthy" ∧
     aqiCategory 201 = "Very Unhealthy" ∧
     aqiCategory 300 = "Very Unhealthy" ∧
     aqiCategory 301 = "Hazardous" ∧ aqiColor 301 = "#7e0023") :=
  aqi_category_color_ladder (aqiInputOf 50 [])
    { aqi := Option.some 50, city := Option.none,
      dominentpol := Option.none, iaqi := [] } 50 aqiRec50 rfl rfl rfl rfl

/-- The per-entry rule as the claim states it: a dict containing key v
passes through unchanged, a bare number is wrapped as a dict with a
single v field, anything else is dropped. -/
def keepIaqiEntry : PyVal → Option PyVal
  | PyVal.dict kvs =>
      if (kvs.lookup "v").isSome then Option.some (PyVal.dict kvs) else Option.none
  | PyVal.num q => Option.some (PyVal.dict [("v", PyVal.num q)])
  | _ => Option.none

/-- The iaqi loop implements exactly the per-entry rule, entry by entry. -/
theorem processIaqi_eq_filterMap (l : List (String × PyVal)) :
    processIaqi l =
      l.filterMap fun kv => (keepIaqiEntry kv.2).map fun v => (kv.1, v) := by
  induction l with
  | nil => rfl
  | cons kv rest ih =>
      obtain ⟨k, v⟩ := kv
      cases v with
      | dict kvs =>
          by_cases h : (kvs.lookup "v").isSome <;>
            simp [processIaqi, keepIaqiEntry, h, ih]
      | num q => simp [processIaqi, keepIaqiEntry, ih]
      | str s => simp [processIaqi, keepIaqiEntry, ih]
      | arr xs => simp [processIaqi, keepIaqiEntry, ih]
      | null => simp [processIaqi, keepIaqiEntry, ih]

/-- C10: on any accepted payload the output per-pollutant mapping holds
exactly the input iaqi entries whose value is a dict containing key v
(kept unchanged) or a bare number (wrapped as a dict with a v field);
entries of any other shape are silently omitted, and the call still
succeeds rather than reporting an error. -/
theorem iaqi_entries_exactly_filtered (i : AqiInput) (d : AqiData) (a : ℤ)
    (hs : i.status = Option.some "ok") (hd : i.data = Option.some d)
    (ha : d.aqi = Option.some a) :
    ∃ r : AqiRecord, process_aqi_data i = AqiOutput.ok r ∧
      r.iaqi = d.iaqi.filterMap fun kv => (keepIaqiEntry kv.2).map fun v => (kv.1, v) := by
  refine ⟨{ city_name := extractCityName d.city
            aqi := a
            dominantPollutant := d.dominentpol.getD (PyVal.str "Unknown")
            iaqi := processIaqi d.iaqi
            category := aqiCategory a
            color := aqiColor a }, ?_, processIaqi_eq_filterMap d.iaqi⟩
  simp only [process_aqi_data, hs, hd, ha, Option.getD_some, ne_eq,
    not_true_eq_false, if_false]

/-- A mixed-shape pollutant mapping: a dict with v, a bare number, a
string, and a dict without v. -/
def iaqiMixed : List (String × PyVal) :=
  [("pm25", PyVal.dict [("v", PyVal.num 12)]),
   ("o3", PyVal.num 7),
   ("bad", PyVal.str "n/a"),
   ("nov", PyVal.dict [("w", PyVal.num 1)])]

/-- Witness for the iaqi filtering theorem on the mixed-shape payload. -/
theorem iaqi_entries_exactly_filtered_witness :
    ∃ r : AqiRecord, process_aqi_data (aqiInputOf 42 iaqiMixed) = AqiOutput.ok r ∧
      r.iaqi = iaqiMixed.filterMap fun kv => (keepIaqiEntry kv.2).map fun v => (kv.1, v) :=
  iaqi_entries_exactly_filtered (aqiInputOf 42 iaqiMixed)
    { aqi := Option.some 42, city := Option.none,
      dominentpol := Option.none, iaqi := iaqiMixed } 42 rfl rfl rfl

/-- C2: when the cache holds an entry for the request key, a call whose
age (now minus stored timestamp) is strictly below cache_time returns
the stored response without invoking requests.get and leaves the cache
unchanged; when the age is at least cache_time the call invokes
requests.get again. -/
theorem cache_hit_iff_within_ttl (url : String)
    (headers : Option (List (String × String))) (ttl : ℚ)
    (c : List (String × (ℚ × Response))) (now : ℚ)
    (fetchResult : Except String Response) (ts : ℚ) (r : Response)
    (hlook : c.lookup (cacheKey url headers) = Option.some (ts, r)) :
    (now - ts < ttl →
      fetch_with_cache url headers ttl c now fetchResult =
        Except.ok ⟨r, c, false⟩) ∧
    (ttl ≤ now - ts →
      invokedFetch (fetch_with_cache url headers ttl c now fetchResult) = true) := by
  constructor
  · intro h
    simp only [fetch_with_cache, hlook, if_pos h]
  · intro h
    simp only [fetch_with_cache, hlook, if_neg (not_lt.mpr h)]
    cases fetchResult <;> simp [fetchStore, invokedFetch]

/-- A fixed 200 response used by the cache witnesses. -/
def okResponse : Response := { status_code := 200, body := "payload" }

/-- Witness for the TTL theorem: entry stored at t=100, consulted at
t=200 with a 300-second TTL. -/
theorem cache_hit_iff_within_ttl_witness :
    ((200 : ℚ) - 100 < 300 →
      fetch_with_cache "https://api.wit.test" Option.none 300
        [(cacheKey "https://api.wit.test" Option.none, (100, okResponse))] 200
        (Except.ok okResponse) =
        Except.ok ⟨okResponse,
          [(cacheKey "https://api.wit.test" Option.none, (100, okResponse))], false⟩) ∧
    ((300 : ℚ) ≤ 200 - 100 →
      invokedFetch (fetch_with_cache "https://api.wit.test" Option.none 300
        [(cacheKey "https://api.wit.test" Option.none, (100, okResponse))] 200
        (Except.ok okResponse)) = true) :=
  cache_hit_iff_within_ttl "https://api.wit.test" Option.none 300
    [(cacheKey "https://api.wit.test" Option.none, (100, okResponse))] 200
    (Except.ok okResponse) 100 okResponse rfl

/-- C8: when the cache cannot serve the request (no entry, or only a
stale one) and the underlying fetch fails or returns a non-200 status,
the call returns the failure directly and the cache — including any
stale entry for the key — is left exactly as it was; the stale entry
is never served in place of the failure. -/
theorem failure_not_cached (url : String)
    (headers : Option (List (String × String))) (ttl : ℚ)
    (c : List (String × (ℚ × Response))) (now : ℚ)
    (fetchResult : Except String Response)
    (hmiss : c.lookup (cacheKey url headers) = Option.none ∨
      ∀ ts r, c.lookup (cacheKey url headers) = Option.some (ts, r) →
        ttl ≤ now - ts) :
    (∀ resp : Response, fetchResult = Except.ok resp → resp.status_code ≠ 200 →
      fetch_with_cache url headers ttl c now fetchResult =
        Except.ok ⟨resp, c, true⟩) ∧
    (∀ e : String, fetchResult = Except.error e →
      fetch_with_cache url headers ttl c now fetchResult = Except.error e) := by
  cases hl : c.lookup (cacheKey url headers) with
  | none =>
      constructor
      · intro resp hf hs
        subst hf
        simp only [fetch_with_cache, hl, fetchStore, if_neg hs]
      · intro e hf
        subst hf
        simp only [fetch_with_cache, hl, fetchStore]
  | some p =>
      obtain ⟨ts, r⟩ := p
      have hstale : ttl ≤ now - ts := by
        rcases hmiss with h | h
        · rw [hl] at h; cases h
        · exact h ts r hl
      constructor
      · intro resp hf hs
        subst hf
        simp only [fetch_with_cache, hl, if_neg (not_lt.mpr hstale), fetchStore,
          if_neg hs]
      · intro e hf
        subst hf
        simp only [fetch_with_cache, hl, if_neg (not_lt.mpr hstale), fetchStore]

/-- A fixed 500 response used by the failure witness. -/
def errResponse : Response := { status_code := 500, body := "server error" }

/-- Witness for the failure theorem: empty cache, 500 response. -/
theorem failure_not_cached_witness :
    (∀ resp : Response, (Except.ok errResponse : Except String Response) = Except.ok resp →
      resp.status_code ≠ 200 →
      fetch_with_cache "https://api.wit.test/f" Option.none 300 [] 200
        (Except.ok errResponse) = Except.ok ⟨resp, [], true⟩) ∧
    (∀ e : String, (Except.ok errResponse : Except String Response) = Except.error e →
      fetch_with_cache "https://api.wit.test/f" Option.none 300 [] 200
        (Except.ok errResponse) = Except.error e) :=
  failure_not_cached "https://api.wit.test/f" Option.none 300 [] 200
    (Except.ok errResponse) (Or.inl rfl)

/-- Headers in one insertion order. -/
def headersAB : List (String × String) := [("a", "1"), ("b", "2")]

/-- The same header pairs in the other insertion order. -/
def headersBA : List (String × String) := [("b", "2"), ("a", "1")]

/-- Counterexample to C6 as stated: these two header mappings contain
exactly the same (name, value) pairs in different order, yet
fetch_with_cache computes different cache keys for them, because the
key embeds str(headers), which follows the dict insertion order. -/
theorem header_order_changes_cache_key :
    headersAB.Perm headersBA ∧ headersAB ≠ headersBA ∧
      cacheKey "https://api.example.test/aqi" (Option.some headersAB) ≠
        cacheKey "https://api.example.test/aqi" (Option.some headersBA) := by
  refine ⟨by decide, by decide, by decide⟩

/-- Amended C6: the cache key serializes the header dict in insertion
order, so the reordered headers produce a different key for every URL,
and a request with the reordered headers misses a cache holding only
the entry stored under the original order, invoking the fetch again. -/
theorem reordered_headers_miss_cache (url : String) (t now ttl : ℚ)
    (r : Response) (fetchResult : Except String Response) :
    cacheKey url (Option.some headersAB) ≠ cacheKey url (Option.some headersBA) ∧
    invokedFetch (fetch_with_cache url (Option.some headersBA) ttl
      [(cacheKey url (Option.some headersAB), (t, r))] now fetchResult) = true := by
  have hser : pyStrOptHeaders (Option.some headersAB) ≠
      pyStrOptHeaders (Option.some headersBA) := by decide
  have hkey : cacheKey url (Option.some headersAB) ≠
      cacheKey url (Option.some headersBA) := by
    intro h
    apply hser
    have h2 := congrArg String.data h
    simp only [cacheKey, String.data_append, List.append_assoc] at h2
    exact String.ext (List.append_cancel_left (List.append_cancel_left h2))
  refine ⟨hkey, ?_⟩
  have hbeq : (cacheKey url (Option.some headersBA) ==
      cacheKey url (Option.some headersAB)) = false :=
    beq_eq_false_iff_ne.mpr fun h => hkey h.symm
  simp only [fetch_with_cache, List.lookup, hbeq]
  cases fetchResult <;> simp [fetchStore, invokedFetch]

/-- All measurements of a payload, across all locations in order. -/
def allMeasurements : List LocationRaw → List Measurement
  | [] => []
  | loc :: rest => loc.measurements ++ allMeasurements rest

/-- All values recorded for one parameter, in order. -/
def valuesFor (p : String) (ms : List Measurement) : List ℚ :=
  (ms.filter fun m => measKey m = p).map measVal

/-- The nested location/measurement loops accumulate exactly as one
pass over all measurements in order. -/
theorem foldl_locations_eq_flat (ls : List LocationRaw) (acc : PollAcc) :
    ls.foldl (fun a loc => loc.measurements.foldl stepMeasure a) acc =
      (allMeasurements ls).foldl stepMeasure acc := by
  induction ls generalizing acc with
  | nil => rfl
  | cons loc rest ih =>
      simp only [List.foldl_cons, allMeasurements, List.foldl_append]
      exact ih _

/-- The values component of the accumulator fold only depends on the
values component, via appendVal. -/
theorem foldl_stepMeasure_values (ms : List Measurement) (acc : PollAcc) :
    (ms.foldl stepMeasure acc).values =
      ms.foldl (fun l m => appendVal l (measKey m) (measVal m)) acc.values := by
  induction ms generalizing acc with
  | nil => rfl
  | cons m rest ih =>
      simp only [List.foldl_cons]
      exact ih _

/-- Looking up the key just appended to. -/
theorem lookup_appendVal_self (l : List (String × List ℚ)) (k : String) (v : ℚ) :
    (appendVal l k v).lookup k = Option.some ((l.lookup k).getD [] ++ [v]) := by
  induction l with
  | nil => simp [appendVal, List.lookup]
  | cons kv rest ih =>
      obtain ⟨k', vs⟩ := kv
      by_cases h : k' = k
      · subst h
        simp [appendVal, List.lookup]
      · simp [appendVal, h, List.lookup, beq_eq_false_iff_ne.mpr (Ne.symm h), ih]

/-- Looking up a different key after appendVal. -/
theorem lookup_appendVal_ne (l : List (String × List ℚ)) (k k' : String) (v : ℚ)
    (h : k' ≠ k) : (appendVal l k v).lookup k' = l.lookup k' := by
  induction l with
  | nil => simp [appendVal, List.lookup, beq_eq_false_iff_ne.mpr h]
  | cons kv rest ih =>
      obtain ⟨k'', vs⟩ := kv
      by_cases h2 : k'' = k
      · subst h2
        simp [appendVal, List.lookup, beq_eq_false_iff_ne.mpr h]
      · simp only [appendVal, if_neg h2, List.lookup, ih]

/-- The values accumulator after a pass over ms: a parameter maps to
whatever it already had followed by all its values in ms, and is
absent when it neither was present nor occurs. -/
theorem lookup_values_foldl (ms : List Measurement) (l : List (String × List ℚ))
    (p : String) :
    (ms.foldl (fun l m => appendVal l (measKey m) (measVal m)) l).lookup p =
      if (l.lookup p).isSome ∨ p ∈ ms.map measKey then
        Option.some ((l.lookup p).getD [] ++ valuesFor p ms)
      else Option.none := by
  induction ms generalizing l with
  | nil =>
      cases hl : l.lookup p <;> simp [hl, valuesFor]
  | cons m rest ih =>
      simp only [List.foldl_cons]
      rw [ih]
      by_cases hk : measKey m = p
      · subst hk
        rw [lookup_appendVal_self]
        simp [valuesFor, List.filter_cons, List.mem_cons, List.append_assoc]
      · have hpk : ¬ p = measKey m := fun h => hk h.symm
        rw [lookup_appendVal_ne l (measKey m) p (measVal m) hpk]
        have hfil : valuesFor p (m :: rest) = valuesFor p rest := by
          simp [valuesFor, List.filter_cons, hk]
        rw [hfil]
        exact if_congr (by simp [List.mem_cons, hpk]) rfl rfl

/-- Lookup through the averaging map. -/
theorem lookup_map_avg (l : List (String × List ℚ)) (p : String) :
    (l.map fun kv => (kv.1, avgOf kv.2)).lookup p = (l.lookup p).map avgOf := by
  induction l with
  | nil => simp [List.lookup]
  | cons kv rest ih =>
      obtain ⟨k, vs⟩ := kv
      by_cases h : p = k
      · subst h
        simp [List.lookup]
      · simp [List.lookup, beq_eq_false_iff_ne.mpr h, ih]

/-- C4: for a payload with a non-empty results list, every parameter
occurring in some measurement maps, in the averages table, to the sum
of all its recorded values across all locations divided by their
number (which is nonzero), and a parameter with zero occurrences does
not appear in the averages at all. -/
theorem pollution_averages_are_means (input : PollutionInput)
    (hne : input.results ≠ []) (p : String) :
    ((∃ m ∈ allMeasurements input.results, measKey m = p) →
      (process_pollution_data input).averages.lookup p =
        Option.some ((valuesFor p (allMeasurements input.results)).sum /
          ((valuesFor p (allMeasurements input.results)).length : ℚ)) ∧
      (valuesFor p (allMeasurements input.results)).length ≠ 0) ∧
    ((∀ m ∈ allMeasurements input.results, measKey m ≠ p) →
      (process_pollution_data input).averages.lookup p = Option.none) := by
  have hie : input.results.isEmpty = false := by
    cases h : input.results with
    | nil => exact absurd h hne
    | cons a l => rfl
  have havg : (process_pollution_data input).averages =
      (pollAccOf input).values.map fun kv => (kv.1, avgOf kv.2) := by
    simp [process_pollution_data, hie]
  have hvals : (pollAccOf input).values =
      (allMeasurements input.results).foldl
        (fun l m => appendVal l (measKey m) (measVal m)) [] := by
    have h1 : pollAccOf input =
        (allMeasurements input.results).foldl stepMeasure ⟨[], []⟩ :=
      foldl_locations_eq_flat input.results ⟨[], []⟩
    rw [h1, foldl_stepMeasure_values]
  have hlook := lookup_values_foldl (allMeasurements input.results) [] p
  constructor
  · intro hocc
    obtain ⟨m, hm, hk⟩ := hocc
    have hmem : p ∈ (allMeasurements input.results).map measKey :=
      List.mem_map.mpr ⟨m, hm, hk⟩
    rw [if_pos (Or.inr hmem)] at hlook
    have hvne : valuesFor p (allMeasurements input.results) ≠ [] := by
      have hf : m ∈ (allMeasurements input.results).filter
          (fun m => measKey m = p) :=
        List.mem_filter.mpr ⟨hm, by simp [hk]⟩
      exact List.ne_nil_of_mem (List.mem_map_of_mem measVal hf)
    have hlen : (valuesFor p (allMeasurements input.results)).length ≠ 0 := by
      simpa [List.length_eq_zero] using hvne
    refine ⟨?_, hlen⟩
    rw [havg, lookup_map_avg, hvals, hlook]
    simp only [List.lookup, Option.getD_none, List.nil_append, Option.map_some]
    simp [avgOf, List.isEmpty_iff, hvne]
  · intro hnocc
    have hmem : p ∉ (allMeasurements input.results).map measKey := by
      intro hmem'
      obtain ⟨m, hm, hk⟩ := List.mem_map.mp hmem'
      exact hnocc m hm hk
    rw [if_neg (by simp [hmem, List.lookup])] at hlook
    rw [havg, lookup_map_avg, hvals, hlook]
    rfl

/-- A two-location payload with overlapping parameters, witnessing the
averages theorem for parameter pm25 (values 10 and 30, mean 20). -/
def pollutionWitnessInput : PollutionInput :=
  { results :=
      [ { location := Option.some "siteA"
          city := Option.some "X"
          latitude := Option.some 1
          longitude := Option.some 2
          measurements :=
            [ { parameter := Option.some "pm25", value := Option.some 10,
                unit := Option.some "ug", lastUpdated := Option.none },
              { parameter := Option.some "no2", value := Option.some 5,
                unit := Option.some "ug", lastUpdated := Option.none } ] },
        { location := Option.some "siteB"
          city := Option.some "Y"
          latitude := Option.none
          longitude := Option.none
          measurements :=
            [ { parameter := Option.some "pm25", value := Option.some 30,
                unit := Option.some "ug", lastUpdated := Option.none } ] } ] }

/-- Witness for the pollution averages theorem at parameter pm25. -/
theorem pollution_averages_are_means_witness :
    ((∃ m ∈ allMeasurements pollutionWitnessInput.results, measKey m = "pm25") →
      (process_pollution_data pollutionWitnessInput).averages.lookup "pm25" =
        Option.some ((valuesFor "pm25" (allMeasurements pollutionWitnessInput.results)).sum /
          ((valuesFor "pm25" (allMeasurements pollutionWitnessInput.results)).length : ℚ)) ∧
      (valuesFor "pm25" (allMeasurements pollutionWitnessInput.results)).length ≠ 0) ∧
    ((∀ m ∈ allMeasurements pollutionWitnessInput.results, measKey m ≠ "pm25") →
      (process_pollution_data pollutionWitnessInput).averages.lookup "pm25" =
        Option.none) :=
  pollution_averages_are_means pollutionWitnessInput
    (List.cons_ne_nil _ _) "pm25"

/-- The species names in first-seen (encounter) order: each name once,
at the position of its first occurrence. -/
def firstSeenOrder : List String → List String
  | [] => []
  | x :: rest => x :: (firstSeenOrder rest).filter fun y => y ≠ x

/-- Looking up the key just bumped. -/
theorem lookup_bumpCount_self (acc : List (String × ℕ)) (s : String) :
    (bumpCount acc s).lookup s = Option.some ((acc.lookup s).getD 0 + 1) := by
  induction acc with
  | nil => simp [bumpCount, List.lookup]
  | cons kv rest ih =>
      obtain ⟨k, n⟩ := kv
      by_cases h : k = s
      · subst h
        simp [bumpCount, List.lookup]
      · simp [bumpCount, h, List.lookup, beq_eq_false_iff_ne.mpr (Ne.symm h), ih]

/-- Looking up a different key after a bump. -/
theorem lookup_bumpCount_ne (acc : List (String × ℕ)) (s p : String)
    (h : p ≠ s) : (bumpCount acc s).lookup p = acc.lookup p := by
  induction acc with
  | nil => simp [bumpCount, List.lookup, beq_eq_false_iff_ne.mpr h]
  | cons kv rest ih =>
      obtain ⟨k, n⟩ := kv
      by_cases h2 : k = s
      · subst h2
        simp [bumpCount, List.lookup, beq_eq_false_iff_ne.mpr h]
      · simp only [bumpCount, if_neg h2, List.lookup, ih]

/-- A bump never removes a key from the lookup, and adds only the
bumped key. -/
theorem isNone_lookup_bumpCount (acc : List (String × ℕ)) (x s : String) :
    ((bumpCount acc x).lookup s).isNone =
      ((acc.lookup s).isNone && decide (s ≠ x)) := by
  by_cases hx : s = x
  · subst hx
    rw [lookup_bumpCount_self]
    simp
  · rw [lookup_bumpCount_ne acc x s hx]
    simp [hx]

/-- The key list after a bump: unchanged when the key was present,
the key appended when it was new. -/
theorem keys_bumpCount (acc : List (String × ℕ)) (s : String) :
    (bumpCount acc s).map Prod.fst =
      if (acc.lookup s).isSome then acc.map Prod.fst
      else acc.map Prod.fst ++ [s] := by
  induction acc with
  | nil => simp [bumpCount, List.lookup]
  | cons kv rest ih =>
      obtain ⟨k, n⟩ := kv
      by_cases h : k = s
      · subst h
        simp [bumpCount, List.lookup]
      · simp only [bumpCount, if_neg h, List.map_cons, List.lookup,
          beq_eq_false_iff_ne.mpr (Ne.symm h), ih]
        by_cases hs : (List.lookup s rest).isSome <;> simp [hs]

/-- The count table after a pass over names: a name maps to what it
already had plus its number of occurrences, and is absent when it
neither was present nor occurs. -/
theorem lookup_foldl_bumpCount (names : List String) (acc : List (String × ℕ))
    (p : String) :
    (names.foldl bumpCount acc).lookup p =
      if (acc.lookup p).isSome ∨ p ∈ names then
        Option.some ((acc.lookup p).getD 0 + names.count p)
      else Option.none := by
  induction names generalizing acc with
  | nil =>
      cases hl : acc.lookup p <;> simp [hl]
  | cons x rest ih =>
      simp only [List.foldl_cons]
      rw [ih]
      by_cases hx : x = p
      · subst hx
        rw [lookup_bumpCount_self]
        simp only [Option.isSome_some, Option.getD_some, List.count_cons_self,
          List.mem_cons, or_true, true_or, if_true, Option.some.injEq]
        ring
      · have hpx : p ≠ x := fun h => hx h.symm
        rw [lookup_bumpCount_ne acc x p hpx]
        rw [List.count_cons_of_ne hpx]
        exact if_congr (by simp [List.mem_cons, hpx]) rfl rfl

/-- Filtering new keys through a bump equals filtering out the bumped
key first. -/
theorem filter_isNone_bumpCount (acc : List (String × ℕ)) (x : String)
    (F : List String) :
    F.filter (fun s => ((bumpCount acc x).lookup s).isNone) =
      (F.filter fun s => s ≠ x).filter fun s => ((acc.lookup s).isNone) := by
  induction F with
  | nil => rfl
  | cons s F ih =>
      by_cases hs : s = x
      · subst hs
        rw [List.filter_cons, List.filter_cons]
        simp [isNone_lookup_bumpCount, ih]
      · rw [List.filter_cons, List.filter_cons, isNone_lookup_bumpCount]
        by_cases hn : (acc.lookup s).isNone
        · simp [hs, hn, List.filter_cons, ih]
        · simp [hs, hn, List.filter_cons, ih]

/-- The key list of the count table: the keys already present followed
by the new names in first-seen order. -/
theorem keys_foldl_bumpCount (names : List String) (acc : List (String × ℕ)) :
    (names.foldl bumpCount acc).map Prod.fst =
      acc.map Prod.fst ++
        (firstSeenOrder names).filter fun s => ((acc.lookup s).isNone) := by
  induction names generalizing acc with
  | nil => simp [firstSeenOrder]
  | cons x rest ih =>
      simp only [List.foldl_cons]
      rw [ih, keys_bumpCount, firstSeenOrder, List.filter_cons,
        filter_isNone_bumpCount]
      by_cases hx : (acc.lookup x).isSome
      · have hxn : (acc.lookup x).isNone = false := by
          cases h : acc.lookup x
          · rw [h] at hx; simp at hx
          · rfl
        simp [hx, hxn]
      · have hxn : (acc.lookup x).isNone = true := by
          cases h : acc.lookup x
          · rfl
          · rw [h] at hx; simp at hx
        have hxs : (acc.lookup x).isSome = false := by
          cases h : acc.lookup x
          · rfl
          · rw [h] at hx; simp at hx
        simp [hxs, hxn, List.append_assoc]

/-- The key list of the species table is exactly the names in
first-seen order. -/
theorem keys_speciesTable (names : List String) :
    (names.foldl bumpCount []).map Prod.fst = firstSeenOrder names := by
  rw [keys_foldl_bumpCount]
  simp only [List.map_nil, List.nil_append, List.lookup]
  exact List.filter_eq_self.mpr fun a _ => rfl

/-- The first-seen order lists each name at most once. -/
theorem nodup_firstSeenOrder (names : List String) :
    (firstSeenOrder names).Nodup := by
  induction names with
  | nil => exact List.nodup_nil
  | cons x rest ih =>
      refine List.Nodup.cons ?_ (ih.filter _)
      intro hmem
      have := (List.mem_filter.mp hmem).2
      simp at this

/-- A successful lookup yields a member of the association list. -/
theorem mem_of_lookup_eq_some {β : Type} {l : List (String × β)} {k : String}
    {v : β} (h : l.lookup k = Option.some v) : (k, v) ∈ l := by
  induction l with
  | nil => cases h
  | cons kv rest ih =>
      obtain ⟨k', v'⟩ := kv
      by_cases hk : k = k'
      · subst hk
        simp only [List.lookup, beq_self_eq_true] at h
        cases h
        exact List.mem_cons_self _ _
      · simp only [List.lookup, beq_eq_false_iff_ne.mpr hk] at h
        exact List.mem_cons_of_mem _ (ih h)

/-- With duplicate-free keys, membership determines the lookup. -/
theorem lookup_eq_some_of_mem {β : Type} {l : List (String × β)} {k : String}
    {v : β} (hnd : (l.map Prod.fst).Nodup) (h : (k, v) ∈ l) :
    l.lookup k = Option.some v := by
  induction l with
  | nil => cases h
  | cons kv rest ih =>
      obtain ⟨k', v'⟩ := kv
      rcases List.mem_cons.mp h with heq | hmem
      · cases heq
        simp [List.lookup]
      · have hk : k ≠ k' := by
          intro hk
          subst hk
          exact (List.nodup_cons.mp hnd).1
            (List.mem_map.mpr ⟨(k, v), hmem, rfl⟩)
        simp only [List.lookup, beq_eq_false_iff_ne.mpr hk]
        exact ih (List.nodup_cons.mp hnd).2 hmem

/-- Two members of a list occur as a pair-sublist in one order or the
other. -/
theorem pair_sublist_of_mem {α : Type} {a b : α} {l : List α}
    (ha : a ∈ l) (hb : b ∈ l) (hne : a ≠ b) :
    List.Sublist [a, b] l ∨ List.Sublist [b, a] l := by
  induction l with
  | nil => cases ha
  | cons x t ih =>
      by_cases hax : a = x
      · subst hax
        have hbt : b ∈ t := by
          rcases List.mem_cons.mp hb with h | h
          · exact absurd h.symm hne
          · exact h
        exact Or.inl ((List.singleton_sublist.mpr hbt).cons₂ a)
      · by_cases hbx : b = x
        · subst hbx
          have hat : a ∈ t := by
            rcases List.mem_cons.mp ha with h | h
            · exact absurd h hax
            · exact h
          exact Or.inr ((List.singleton_sublist.mpr hat).cons₂ b)
        · have hat : a ∈ t := by
            rcases List.mem_cons.mp ha with h | h
            · exact absurd h hax
            · exact h
          have hbt : b ∈ t := by
            rcases List.mem_cons.mp hb with h | h
            · exact absurd h hbx
            · exact h
          rcases ih hat hbt with h | h
          · exact Or.inl (h.cons x)
          · exact Or.inr (h.cons x)

/-- In a duplicate-free list a pair cannot occur as a sublist in both
orders. -/
theorem pair_sublist_antisymm {α : Type} {a b : α} {l : List α}
    (hnd : l.Nodup) (h1 : List.Sublist [a, b] l) (h2 : List.Sublist [b, a] l) :
    a = b := by
  induction l with
  | nil => cases h1
  | cons x t ih =>
      obtain ⟨hx, hnd'⟩ := List.nodup_cons.mp hnd
      cases h1 with
      | cons _ h1' =>
          cases h2 with
          | cons _ h2' => exact ih hnd' h1' h2'
          | cons₂ _ h2' =>
              exact absurd (h1'.subset (List.mem_cons_of_mem a
                (List.mem_singleton.mpr rfl))) hx
      | cons₂ _ h1' =>
          cases h2 with
          | cons _ h2' =>
              exact absurd (h2'.subset (List.mem_cons_of_mem b
                (List.mem_singleton.mpr rfl))) hx
          | cons₂ _ h2' => rfl

/-- The descending-count comparison is transitive. -/
theorem countGe_trans (a b c : String × ℕ) (hab : countGe a b)
    (hbc : countGe b c) : countGe a c := by
  simp only [countGe, decide_eq_true_eq] at *
  omega

/-- The descending-count comparison is total. -/
theorem countGe_total (a b : String × ℕ) : countGe a b || countGe b a := by
  simp only [countGe, Bool.or_eq_true, decide_eq_true_eq]
  omega

/-- A species that occurs in the name list is in the count table,
paired with its occurrence count. -/
theorem count_entry_mem_table (names : List String) (s : String)
    (hs : s ∈ names) :
    (s, names.count s) ∈ names.foldl bumpCount [] := by
  apply mem_of_lookup_eq_some
  rw [lookup_foldl_bumpCount, if_pos (Or.inr hs)]
  simp [List.lookup]

/-- Two entries of the sorted count table with equal counts occur in
first-seen order of their keys (stability of the sort). -/
theorem tie_pair_firstSeen (names : List String) (p q : String × ℕ)
    (h1 : List.Sublist [p, q] ((names.foldl bumpCount []).mergeSort countGe))
    (heq : p.2 = q.2) :
    List.Sublist [p.1, q.1] (firstSeenOrder names) := by
  have hkeys := keys_speciesTable names
  have hknd : ((names.foldl bumpCount []).map Prod.fst).Nodup :=
    hkeys ▸ nodup_firstSeenOrder names
  have htnd : (names.foldl bumpCount []).Nodup :=
    List.Nodup.of_map Prod.fst hknd
  have hperm := List.mergeSort_perm (names.foldl bumpCount []) countGe
  have hsnd : ((names.foldl bumpCount []).mergeSort countGe).Nodup :=
    hperm.nodup_iff.mpr htnd
  have hp : p ∈ names.foldl bumpCount [] :=
    List.mem_mergeSort.mp (h1.subset (by simp))
  have hq : q ∈ names.foldl bumpCount [] :=
    List.mem_mergeSort.mp (h1.subset (by simp))
  have hne2 : p ≠ q := by
    intro hpq
    subst hpq
    have := h1.nodup hsnd
    simp at this
  rcases pair_sublist_of_mem hp hq hne2 with h | h
  · have hmap := h.map Prod.fst
    rwa [hkeys] at hmap
  · have hge : countGe q p := by simp [countGe, heq]
    have h2 : List.Sublist [q, p]
        ((names.foldl bumpCount []).mergeSort countGe) :=
      List.pair_sublist_mergeSort countGe_trans countGe_total hge h
    exact absurd (pair_sublist_antisymm hsnd h1 h2) hne2

/-- C5: on a non-empty sighting list the counts table keys species
common names (default Unknown) without duplicates; each listed species
maps to its number of occurrences; entries are in descending count
order; two entries with equal counts appear in first-seen (encounter)
order of the species; and the table is exactly the first-10 truncation
of the full sorted table: it has min 10 (number of distinct species)
entries, when fewer than 10 every occurring species is listed, an
unlisted species never outcounts a listed entry, and an unlisted
species tied with a listed entry is encountered only after it. -/
theorem bird_counts_top10_sorted (data : List Sighting) (hne : data ≠ []) :
    ((process_bird_data data).counts.map Prod.fst).Nodup ∧
    (∀ p ∈ (process_bird_data data).counts,
      p.2 = (data.map birdName).count p.1) ∧
    (process_bird_data data).counts.Pairwise (fun p q => q.2 ≤ p.2) ∧
    (∀ p q : String × ℕ,
      List.Sublist [p, q] (process_bird_data data).counts → p.2 = q.2 →
      List.Sublist [p.1, q.1] (firstSeenOrder (data.map birdName))) ∧
    (process_bird_data data).counts.length ≤ 10 ∧
    ((process_bird_data data).counts.length < 10 →
      ∀ s ∈ data.map birdName, ∃ n : ℕ,
        (s, n) ∈ (process_bird_data data).counts) ∧
    (process_bird_data data).counts.length =
      min 10 (firstSeenOrder (data.map birdName)).length ∧
    (∀ s ∈ data.map birdName,
      s ∉ (process_bird_data data).counts.map Prod.fst →
      ∀ p ∈ (process_bird_data data).counts,
        (data.map birdName).count s ≤ p.2) ∧
    (∀ s ∈ data.map birdName,
      s ∉ (process_bird_data data).counts.map Prod.fst →
      ∀ p ∈ (process_bird_data data).counts,
        (data.map birdName).count s = p.2 →
        List.Sublist [p.1, s] (firstSeenOrder (data.map birdName))) := by
  have hie : data.isEmpty = false := by
    cases h : data with
    | nil => exact absurd h hne
    | cons a l => rfl
  have hsc : speciesCount data = (data.map birdName).foldl bumpCount [] := by
    unfold speciesCount
    exact (List.foldl_map _ _ _ _).symm
  have hcounts : (process_bird_data data).counts =
      (((data.map birdName).foldl bumpCount []).mergeSort countGe).take 10 := by
    simp [process_bird_data, hie, hsc]
  rw [hcounts]
  have hkeys := keys_speciesTable (data.map birdName)
  have hknd : ((((data.map birdName).foldl bumpCount [])).map Prod.fst).Nodup :=
    hkeys ▸ nodup_firstSeenOrder (data.map birdName)
  have hperm := List.mergeSort_perm ((data.map birdName).foldl bumpCount []) countGe
  have hs2 : (((data.map birdName).foldl bumpCount []).mergeSort
      countGe).Pairwise fun p q : String × ℕ => q.2 ≤ p.2 :=
    (List.sorted_mergeSort countGe_trans countGe_total
      ((data.map birdName).foldl bumpCount [])).imp
      fun h => by simpa [countGe] using h
  have hsplit : ((data.map birdName).foldl bumpCount []).mergeSort countGe =
      ((((data.map birdName).foldl bumpCount []).mergeSort countGe).take 10) ++
        ((((data.map birdName).foldl bumpCount []).mergeSort countGe).drop 10) :=
    (List.take_append_drop 10 _).symm
  refine ⟨?_, ?_, ?_, ?_, ?_, ?_, ?_, ?_, ?_⟩
  · have h1 : ((((data.map birdName).foldl bumpCount []).mergeSort countGe).take 10).map
        Prod.fst =
        ((((data.map birdName).foldl bumpCount []).mergeSort countGe).map Prod.fst).take 10 :=
      List.map_take _ _ _
    rw [h1]
    have h2 : ((((data.map birdName).foldl bumpCount []).mergeSort countGe).map
        Prod.fst).Nodup :=
      (hperm.map Prod.fst).nodup_iff.mpr hknd
    exact List.Nodup.sublist (List.take_sublist _ _) h2
  · intro p hp
    obtain ⟨s, n⟩ := p
    have hmem : (s, n) ∈ (data.map birdName).foldl bumpCount [] :=
      List.mem_mergeSort.mp ((List.take_sublist _ _).subset hp)
    have hl1 : ((data.map birdName).foldl bumpCount []).lookup s =
        Option.some n := lookup_eq_some_of_mem hknd hmem
    rw [lookup_foldl_bumpCount] at hl1
    by_cases hm : s ∈ data.map birdName
    · rw [if_pos (Or.inr hm)] at hl1
      simp only [List.lookup, Option.getD_none, Nat.zero_add,
        Option.some.injEq] at hl1
      exact hl1.symm
    · rw [if_neg (by simp [List.lookup, hm])] at hl1
      cases hl1
  · exact List.Pairwise.sublist (List.take_sublist _ _) hs2
  · intro p q hsub heq
    exact tie_pair_firstSeen (data.map birdName) p q
      (hsub.trans (List.take_sublist _ _)) heq
  · rw [List.length_take]
    exact min_le_left _ _
  · intro hlt s hs
    have hlen : (((data.map birdName).foldl bumpCount []).mergeSort
        countGe).length < 10 := by
      rw [List.length_take] at hlt
      omega
    have htake : (((data.map birdName).foldl bumpCount []).mergeSort
        countGe).take 10 =
        ((data.map birdName).foldl bumpCount []).mergeSort countGe :=
      List.take_of_length_le (le_of_lt hlen)
    rw [htake]
    exact ⟨(data.map birdName).count s,
      List.mem_mergeSort.mpr (count_entry_mem_table _ s hs)⟩
  · rw [List.length_take, List.length_mergeSort]
    have hl : ((data.map birdName).foldl bumpCount []).length =
        (firstSeenOrder (data.map birdName)).length := by
      rw [← keys_speciesTable (data.map birdName), List.length_map]
    rw [hl]
  · intro s hs hnot p hp
    have he : (s, (data.map birdName).count s) ∈
        ((data.map birdName).foldl bumpCount []).mergeSort countGe :=
      List.mem_mergeSort.mpr (count_entry_mem_table _ s hs)
    rw [hsplit] at he
    rcases List.mem_append.mp he with h | h
    · exact absurd (List.mem_map_of_mem Prod.fst h) hnot
    · have hPW := hs2
      rw [hsplit] at hPW
      exact (List.pairwise_append.mp hPW).2.2 p hp _ h
  · intro s hs hnot p hp heq
    have he : (s, (data.map birdName).count s) ∈
        ((data.map birdName).foldl bumpCount []).mergeSort countGe :=
      List.mem_mergeSort.mpr (count_entry_mem_table _ s hs)
    rw [hsplit] at he
    have hedrop : (s, (data.map birdName).count s) ∈
        (((data.map birdName).foldl bumpCount []).mergeSort countGe).drop 10 := by
      rcases List.mem_append.mp he with h | h
      · exact absurd (List.mem_map_of_mem Prod.fst h) hnot
      · exact h
    have hpair : List.Sublist [p, (s, (data.map birdName).count s)]
        (((data.map birdName).foldl bumpCount []).mergeSort countGe) := by
      rw [hsplit]
      have := List.Sublist.append (List.singleton_sublist.mpr hp)
        (List.singleton_sublist.mpr hedrop)
      simpa using this
    exact tie_pair_firstSeen (data.map birdName) p
      (s, (data.map birdName).count s) hpair heq.symm

/-- A sighting record carrying only a common name. -/
def sightingNamed (s : String) : Sighting :=
  { comName := Option.some s
    sciName := Option.none
    locName := Option.none
    obsDt := Option.none
    howMany := Option.none
    lat := Option.none
    lng := Option.none }

/-- Five sightings over three species with a tie between the top two. -/
def birdWitnessData : List Sighting :=
  [sightingNamed "sparrow", sightingNamed "crow", sightingNamed "sparrow",
   sightingNamed "tern", sightingNamed "crow"]

/-- Witness for the bird counts theorem on the five-sighting list. -/
theorem bird_counts_top10_sorted_witness :
    ((process_bird_data birdWitnessData).counts.map Prod.fst).Nodup ∧
    (∀ p ∈ (process_bird_data birdWitnessData).counts,
      p.2 = (birdWitnessData.map birdName).count p.1) ∧
    (process_bird_data birdWitnessData).counts.Pairwise (fun p q => q.2 ≤ p.2) ∧
    (∀ p q : String × ℕ,
      List.Sublist [p, q] (process_bird_data birdWitnessData).counts →
      p.2 = q.2 →
      List.Sublist [p.1, q.1] (firstSeenOrder (birdWitnessData.map birdName))) ∧
    (process_bird_data birdWitnessData).counts.length ≤ 10 ∧
    ((process_bird_data birdWitnessData).counts.length < 10 →
      ∀ s ∈ birdWitnessData.map birdName, ∃ n : ℕ,
        (s, n) ∈ (process_bird_data birdWitnessData).counts) ∧
    (process_bird_data birdWitnessData).counts.length =
      min 10 (firstSeenOrder (birdWitnessData.map birdName)).length ∧
    (∀ s ∈ birdWitnessData.map birdName,
      s ∉ (process_bird_data birdWitnessData).counts.map Prod.fst →
      ∀ p ∈ (process_bird_data birdWitnessData).counts,
        (birdWitnessData.map birdName).count s ≤ p.2) ∧
    (∀ s ∈ birdWitnessData.map birdName,
      s ∉ (process_bird_data birdWitnessData).counts.map Prod.fst →
      ∀ p ∈ (process_bird_data birdWitnessData).counts,
        (birdWitnessData.map birdName).count s = p.2 →
        List.Sublist [p.1, s] (firstSeenOrder (birdWitnessData.map birdName))) :=
  bird_counts_top10_sorted birdWitnessData (List.cons_ne_nil _ _)


end EcoBackend
